import Mathlib

/-!
Shallow embedding of the EDGAR accounting-policy extractor core
(edgar.py): sheet classification, policy segmentation, ranking and
orchestration, and the output text cleanup.

Cells are modelled by an inductive type (absent / string / number /
other scalar); rows are lists of cells; a worksheet carries its id,
title, original index and row matrix.  Fallible code (Python indexing
that can raise IndexError) returns Except.
-/

/-- A spreadsheet cell value: absent (Python None), a string, a number,
or some other non-string scalar. -/
inductive Cell where
  | none
  | str (s : String)
  | num (n : Int)
  | other
deriving DecidableEq

/-- Helper for Python substring search: does the needle start the
haystack? -/
def startsWithChars : List Char → List Char → Bool
  | [], _ => true
  | _ :: _, [] => false
  | n :: ns, h :: hs => n == h && startsWithChars ns hs

/-- Does the needle occur contiguously somewhere inside the haystack? -/
def subChars (needle : List Char) : List Char → Bool
  | [] => startsWithChars needle []
  | h :: hs => startsWithChars needle (h :: hs) || subChars needle hs

/-- Python `needle in hay` on strings: substring containment. -/
def containsSubstr (hay needle : String) : Bool :=
  subChars needle.toList hay.toList

/-- Accumulator loop for Python `s.split(' ', maxsplit)`: split at each
single space until maxsplit splits are used, then the rest is one
field. -/
def splitAux : Nat → List Char → List Char → List (List Char)
  | _, acc, [] => [acc.reverse]
  | maxs, acc, c :: cs =>
    if c == ' ' then
      match maxs with
      | 0 => [acc.reverse ++ c :: cs]
      | m + 1 => acc.reverse :: splitAux m [] cs
    else splitAux maxs (c :: acc) cs

/-- Python `s.split(' ', maxsplit)` (edgar.py line 248 uses maxsplit 9). -/
def pySplit (s : String) (maxs : Nat) : List String :=
  (splitAux maxs [] s.toList).map (fun cs => String.mk cs)

/-- edgar.py OutputRow (lines 93-106). -/
structure OutputRow where
  id : String
  sheet_name : String
  policy : String
  text : String
deriving DecidableEq

/-- edgar.py AccountingPolicy (lines 127-136). -/
structure AccountingPolicy where
  id : String
  sheet_name : String
  policy_name : String
  policy_values : List String
deriving DecidableEq

/-- The character class kept by `re.sub('[^a-zA-Z0-9.$ ]+', '', text)`
(edgar.py line 140): ASCII ranges a-z, A-Z, 0-9 and the three literals
period, dollar, space. -/
def keepChar (c : Char) : Bool :=
  (c.val ≥ 97 && c.val ≤ 122) ||
  (c.val ≥ 65 && c.val ≤ 90) ||
  (c.val ≥ 48 && c.val ≤ 57) ||
  c == '.' || c == '$' || c == ' '

/-- AccountingPolicy.get_output_row (edgar.py lines 138-142):
`' '.join(policy_values)` then `re.sub('[^a-zA-Z0-9.$ ]+', '', ...)`;
substituting every maximal run of excluded characters by the empty
string is filtering each excluded character out. -/
def AccountingPolicy.get_output_row (p : AccountingPolicy) : OutputRow :=
  let policy_text := String.intercalate " " p.policy_values
  let cleaned := String.mk (policy_text.toList.filter keepChar)
  ⟨p.id, p.sheet_name, p.policy_name, cleaned⟩

/-- edgar.py XLSWorksheet (lines 146-160): id, sheet title, original
workbook index, and the row matrix (`list(worksheet.values)`). -/
structure XLSWorksheet where
  id : String
  title : String
  worksheet_index : Nat
  rows : List (List Cell)
deriving DecidableEq

/-- XLSWorksheet._allColumnsAfterBAreNone (edgar.py lines 231-236):
every cell of `row[2:]` is None. -/
def allColumnsAfterBAreNone (row : List Cell) : Bool :=
  (row.drop 2).all (fun entry => entry == Cell.none)

/-- `self.rows_without_tables` (edgar.py lines 158-159). -/
def XLSWorksheet.rows_without_tables (ws : XLSWorksheet) : List (List Cell) :=
  ws.rows.filter allColumnsAfterBAreNone

/-- `self.num_rows` (edgar.py line 156). -/
def XLSWorksheet.num_rows (ws : XLSWorksheet) : Nat := ws.rows.length

/-- `self.num_non_table_rows` (edgar.py line 160). -/
def XLSWorksheet.num_non_table_rows (ws : XLSWorksheet) : Nat :=
  ws.rows_without_tables.length

/-- Python `s.lower()` restricted to the basic latin letters, applied
characterwise (the captions searched for are plain ASCII). -/
def strToLower (s : String) : String :=
  String.mk (s.toList.map Char.toLower)

/-- Per-cell test of the classifier's caption scan (edgar.py lines
184-194): a string cell whose lowercase form contains one of the two
caption substrings; None and non-string cells never match. -/
def cellMatchesCaption (c : Cell) : Bool :=
  match c with
  | Cell.str s =>
    let row_value := strToLower s
    containsSubstr row_value "summary of significant accounting policies" ||
    containsSubstr row_value "significant accounting policies"
  | _ => false

/-- XLSWorksheet.is_summary_of_accounting_policies_sheet (edgar.py
lines 162-195): reject when `num_rows < 50` or
`num_non_table_rows < 50`, else scan every cell of
`rows[0:min(10, len(rows))]` for a caption match. -/
def XLSWorksheet.is_summary_of_accounting_policies_sheet (ws : XLSWorksheet) : Bool :=
  if ws.num_rows < 50 then false
  else if ws.num_non_table_rows < 50 then false
  else (ws.rows.take (min 10 ws.rows.length)).any (fun row => row.any cellMatchesCaption)

/-- XLSWorksheet._isHeader (edgar.py lines 238-254):
`len(b.split(' ', 9)) > 8` disqualifies, then the substrings
`'year'` and `'$'` disqualify, else it is a heading. -/
def isHeader (b_column_value : String) : Bool :=
  if (pySplit b_column_value 9).length > 8 then false
  else if containsSubstr b_column_value "year" || containsSubstr b_column_value "$" then false
  else true

/-- Mutable loop state of extract_accounting_policies: the closed
records so far and the currently open record. -/
structure SegState where
  acc : List AccountingPolicy
  cur : Option AccountingPolicy
deriving DecidableEq

/-- One iteration of the loop of
XLSWorksheet.extract_accounting_policies (edgar.py lines 201-226):
`row[1]` raises IndexError when the row has fewer than two cells;
a None or non-string value is skipped; a heading closes the open
record (if any) and opens a new one; body text opens a
`"Preamble"` record or extends the open record. -/
def segStep (id title : String) (st : SegState) (row : List Cell) : Except String SegState :=
  match row.get? 1 with
  | Option.none => Except.error "IndexError"
  | Option.some b =>
    match b with
    | Cell.str s =>
      if isHeader s then
        match st.cur with
        | Option.none => Except.ok ⟨st.acc, Option.some ⟨id, title, s, []⟩⟩
        | Option.some cur =>
          Except.ok ⟨st.acc ++ [cur], Option.some ⟨id, title, s, []⟩⟩
      else
        match st.cur with
        | Option.none =>
          Except.ok ⟨st.acc, Option.some ⟨id, title, "Preamble", [s]⟩⟩
        | Option.some cur =>
          Except.ok ⟨st.acc,
            Option.some ⟨cur.id, cur.sheet_name, cur.policy_name,
              cur.policy_values ++ [s]⟩⟩
    | _ => Except.ok st

/-- XLSWorksheet.extract_accounting_policies (edgar.py lines 197-229):
fold segStep over `rows_without_tables[4:]`, then close the still-open
record if any. -/
def XLSWorksheet.extract_accounting_policies (ws : XLSWorksheet) :
    Except String (List AccountingPolicy) := do
  let st ← (ws.rows_without_tables.drop 4).foldlM (segStep ws.id ws.title)
    ⟨[], Option.none⟩
  match st.cur with
  | Option.none => pure st.acc
  | Option.some cur => pure (st.acc ++ [cur])

/-- XLSWorksheet.__lt__ (edgar.py lines 264-267). -/
def ltSheet (a b : XLSWorksheet) : Bool :=
  decide (a.num_rows < b.num_rows) ||
  (a.num_rows == b.num_rows && decide (a.worksheet_index < b.worksheet_index))

/-- Stable insertion into an ascending-sorted list: the new element
passes over every element it is not strictly below, so it lands after
earlier ties. -/
def insertAsc (lt : XLSWorksheet → XLSWorksheet → Bool) (x : XLSWorksheet) :
    List XLSWorksheet → List XLSWorksheet
  | [] => [x]
  | y :: ys => if lt x y then x :: y :: ys else y :: insertAsc lt x ys

/-- Stable ascending insertion sort, processing elements left to
right.  For a strict weak order (which `__lt__` is on distinct
(num_rows, worksheet_index) keys) the stable sorted permutation is
unique, so this agrees with CPython's stable sort. -/
def pySortAsc (lt : XLSWorksheet → XLSWorksheet → Bool)
    (l : List XLSWorksheet) : List XLSWorksheet :=
  l.foldl (fun acc x => insertAsc lt x acc) []

/-- Python `sorted(l, reverse=True)` (edgar.py lines 347-350): CPython
implements reverse=True as reverse the list, stable-sort ascending by
`__lt__`, reverse again. -/
def pySortRev (l : List XLSWorksheet) : List XLSWorksheet :=
  (pySortAsc ltSheet l.reverse).reverse

/-- InputRow.get_accounting_policies (edgar.py lines 344-359), with the
workbook already parsed into worksheet views: rank the sheets with
`sorted(..., reverse=True)`, keep those the classifier accepts, then
extract each surviving sheet in order and concatenate. -/
def extractPolicies (sheets : List XLSWorksheet) :
    Except String (List AccountingPolicy) := do
  let top_sheets := pySortRev sheets
  let accounting_policy_sheets :=
    top_sheets.filter XLSWorksheet.is_summary_of_accounting_policies_sheet
  accounting_policy_sheets.foldlM
    (fun results ws => do
      let policies ← ws.extract_accounting_policies
      pure (results ++ policies)) []

/-- True exactly when an Except value is a success. -/
def exceptOk {ε α : Type} : Except ε α → Bool
  | Except.ok _ => true
  | Except.error _ => false

/-! Concrete worksheet fixtures used by counterexamples and witnesses. -/

/-- A row whose column B holds the classifier caption. -/
def capRow : List Cell := [Cell.none, Cell.str "Significant Accounting Policies"]

/-- A short heading-shaped body row. -/
def bodyRowA : List Cell := [Cell.none, Cell.str "Alpha"]

/-- A short heading-shaped body row. -/
def bodyRowB : List Cell := [Cell.none, Cell.str "Beta"]

/-- A 50-row all-narrative sheet, caption in row 0, workbook index 0. -/
def sheetA : XLSWorksheet :=
  ⟨ "idA", "SheetA", 0, capRow :: List.replicate 49 bodyRowA⟩

/-- A 50-row all-narrative sheet, caption in row 0, workbook index 1. -/
def sheetB : XLSWorksheet :=
  ⟨ "idB", "SheetB", 1, capRow :: List.replicate 49 bodyRowB⟩

/-- A sheet with exactly 50 rows and 50 non-table rows, caption present. -/
def sheet50 : XLSWorksheet :=
  ⟨ "id50", "Sheet50", 0, capRow :: List.replicate 49 bodyRowA⟩

/-! Spec-side definitions for refinement claims. -/

/-- The spec's description of the retained characters of the output
cleanup: ASCII letter, digit, period, dollar, or space. -/
def specKeep (c : Char) : Bool :=
  c.isAlpha || c.isDigit || c == '.' || c == '$' || c == ' '

/-- The spec's description of the output cleanup: join bodyLines with a
single space, then remove every character outside the retained set. -/
def specCleanup (bodyLines : List String) : String :=
  String.mk ((String.intercalate " " bodyLines).toList.filter specKeep)

/-- The regex character class of the code and the retained set of the
spec keep exactly the same characters. -/
theorem keepChar_eq_specKeep (c : Char) : keepChar c = specKeep c := by
  rw [Bool.eq_iff_iff]
  simp only [keepChar, specKeep, Char.isAlpha, Char.isUpper, Char.isLower,
    Char.isDigit, Bool.or_eq_true, Bool.and_eq_true, decide_eq_true_eq,
    beq_iff_eq]
  tauto

/-- C1: the claim states classify is false whenever the row count or
the non-table row count is at most 50; the code only rejects counts
strictly below 50, so a sheet with exactly 50 rows and 50 non-table
rows that carries the caption is classified true, against the code's
own docstring, which demands more than 50. -/
theorem C1_threshold_bug_eval :
    sheet50.num_rows = 50 ∧ sheet50.num_non_table_rows = 50 ∧
    sheet50.is_summary_of_accounting_policies_sheet = true := by
  exact ⟨ by decide, by decide, by decide⟩

/-- C4 counterexample: on the body [\x22Cash $100.00 was held (Q3)\x22]
the cleanup keeps the dollar sign and the periods, so the output text
is not the claimed \x22Cash 10000 was held Q3\x22. -/
theorem C4_counterexample :
    (AccountingPolicy.get_output_row
      ⟨ "i", "s", "p", [ "Cash $100.00 was held (Q3)"]⟩).text ≠
    "Cash 10000 was held Q3" := by decide

/-- C4 amended: the cleanup of that body removes only the parentheses
and yields exactly \x22Cash $100.00 was held Q3\x22. -/
theorem C4_cleanup_example :
    AccountingPolicy.get_output_row
      ⟨ "i", "s", "p", [ "Cash $100.00 was held (Q3)"]⟩ =
    ⟨ "i", "s", "p", "Cash $100.00 was held Q3"⟩ := by decide

/-- C5: for every finalized record, the cleaned output text equals the
bodyLines joined with a single space with every character outside
[A-Za-z0-9.$ ] removed. -/
theorem C5_cleanup_charset (p : AccountingPolicy) :
    (AccountingPolicy.get_output_row p).text = specCleanup p.policy_values := by
  have hf : keepChar = specKeep := funext keepChar_eq_specKeep
  simp [AccountingPolicy.get_output_row, specCleanup, hf]

/-- C7: an 8-word string is heading-shaped, a 9-word string is not, and
in general a bounded single-space split with more than 8 fields
disqualifies a string from being a heading. -/
theorem C7_split_boundary :
    isHeader "a b c d e f g h" = true ∧
    isHeader "a b c d e f g h i" = false ∧
    ∀ s : String, (pySplit s 9).length > 8 → isHeader s = false := by
  refine ⟨ by decide, by decide, ?_⟩
  intro s h
  unfold isHeader
  rw [if_pos h]

/-- C7 witness: the general split-count disqualifier applied to a
concrete 9-word string. -/
theorem C7_split_boundary_witness :
    isHeader "one two three four five six seven eight nine" = false :=
  C7_split_boundary.2.2 "one two three four five six seven eight nine"
    (by decide)

/-- C8: any string containing the character $ or the case-sensitive
substring year is not a heading, in particular the two examples of the
spec. -/
theorem C8_disqualifiers :
    (∀ s : String,
      (containsSubstr s "year" || containsSubstr s "$") = true →
      isHeader s = false) ∧
    isHeader "Fiscal year policy" = false ∧
    isHeader "Total $ value" = false := by
  refine ⟨ ?_, by decide, by decide⟩
  intro s h
  unfold isHeader
  by_cases h9 : (pySplit s 9).length > 8
  · rw [if_pos h9]
  · rw [if_neg h9, if_pos h]

/-- C8 witness: the general disqualifier applied to a concrete string
containing the substring year. -/
theorem C8_disqualifiers_witness : isHeader "in the year 2017" = false :=
  C8_disqualifiers.1 "in the year 2017" (by decide)

/-- Bind on a successful Except computes the continuation. -/
theorem exbind_ok {α β : Type} (x : α) (f : α → Except String β) :
    (Except.ok x >>= f : Except String β) = f x := rfl

/-- An all-None two-cell filler row. -/
def padRow : List Cell := [Cell.none, Cell.none]

/-- A view whose only post-skip non-tabular row has a single cell. -/
def viewShort : XLSWorksheet :=
  ⟨ "iS", "tS", 0, [padRow, padRow, padRow, padRow, [Cell.none]]⟩

/-- C3 counterexample: on a view whose post-skip non-tabular row has
fewer than two cells, segmentation fails with an IndexError instead of
skipping the row, so segment is not total over the documented shapes. -/
theorem C3_counterexample :
    viewShort.extract_accounting_policies = Except.error "IndexError" := rfl

/-- segStep never fails on a row with at least two cells. -/
theorem segStep_ok_of_two (id title : String) (st : SegState)
    (a b : Cell) (rest : List Cell) :
    exceptOk (segStep id title st (a :: b :: rest)) = true := by
  cases b <;> cases hc : st.cur <;>
    simp only [segStep, List.get?, hc] <;>
    first
      | rfl
      | (split <;> rfl)

/-- Folding segStep over rows that all have at least two cells never
fails. -/
theorem foldlM_segStep_ok (id title : String) :
    ∀ (rows : List (List Cell)) (st : SegState),
      rows.all (fun r => decide (2 ≤ r.length)) = true →
      exceptOk (rows.foldlM (segStep id title) st) = true := by
  intro rows
  induction rows with
  | nil => intro st h; rfl
  | cons r rs ih =>
    intro st h
    simp only [List.all_cons, Bool.and_eq_true, decide_eq_true_eq] at h
    obtain ⟨h2, hall⟩ := h
    match r, h2 with
    | a :: b :: rest, _ =>
      have hok := segStep_ok_of_two id title st a b rest
      rw [List.foldlM_cons]
      cases hseg : segStep id title st (a :: b :: rest) with
      | error e => rw [hseg] at hok; simp [exceptOk] at hok
      | ok st2 =>
        rw [exbind_ok]
        exact ih st2 (by simp only [List.all_eq_true, decide_eq_true_eq] at hall ⊢; exact hall)

/-- C3 amended: a row with at least two cells whose second cell is
absent or not a string is skipped (the loop state is unchanged), and
segmentation succeeds whenever every post-skip non-tabular row has at
least two cells; a shorter row instead raises an IndexError (see the
counterexample). -/
theorem C3_skip_and_totality :
    (∀ (id title : String) (st : SegState) (row : List Cell) (c : Cell),
      row.get? 1 = Option.some c → (∀ s : String, c ≠ Cell.str s) →
      segStep id title st row = Except.ok st) ∧
    (∀ ws : XLSWorksheet,
      (ws.rows_without_tables.drop 4).all (fun r => decide (2 ≤ r.length)) = true →
      exceptOk ws.extract_accounting_policies = true) := by
  constructor
  · intro id title st row c hget hns
    unfold segStep
    rw [hget]
    cases c with
    | str s => exact absurd rfl (hns s)
    | none => rfl
    | num n => rfl
    | other => rfl
  · intro ws hall
    unfold XLSWorksheet.extract_accounting_policies
    have h := foldlM_segStep_ok ws.id ws.title (ws.rows_without_tables.drop 4)
      ⟨[], Option.none⟩ hall
    cases hf : (ws.rows_without_tables.drop 4).foldlM (segStep ws.id ws.title)
        ⟨[], Option.none⟩ with
    | error e => rw [hf] at h; simp [exceptOk] at h
    | ok st =>
      rw [exbind_ok]
      cases st.cur <;> rfl

/-- A view whose post-skip rows all have two cells: a skipped number
row and one heading row. -/
def viewOK : XLSWorksheet :=
  ⟨ "iK", "tK", 0,
    [padRow, padRow, padRow, padRow,
     [Cell.none, Cell.num 3],
     [Cell.none, Cell.str "Policies"]]⟩

/-- C3 witness: the skip rule applied to a concrete number cell and
totality applied to a concrete view with two-cell rows. -/
theorem C3_skip_and_totality_witness :
    segStep "iK" "tK" ⟨[], Option.none⟩ [Cell.none, Cell.num 3] =
      Except.ok ⟨[], Option.none⟩ ∧
    exceptOk viewOK.extract_accounting_policies = true :=
  ⟨C3_skip_and_totality.1 "iK" "tK" ⟨[], Option.none⟩ [Cell.none, Cell.num 3]
      (Cell.num 3) rfl (by simp),
   C3_skip_and_totality.2 viewOK (by decide)⟩

/-- The spec's preamble fixture: four filler rows, then the strings
intro text and More Info in column B. -/
def viewIntro : XLSWorksheet :=
  ⟨ "iP", "tP", 0,
    [padRow, padRow, padRow, padRow,
     [Cell.none, Cell.str "intro text"],
     [Cell.none, Cell.str "More Info"]]⟩

/-- C6 counterexample: intro text is heading-shaped for the code (two
space-separated fields, no dollar, no year), so on the spec's fixture
segmentation opens a record named intro text instead of a Preamble
record carrying it as body. -/
theorem C6_counterexample :
    isHeader "intro text" = true ∧
    viewIntro.extract_accounting_policies =
      Except.ok
        [⟨ "iP", "tP", "intro text", []⟩, ⟨ "iP", "tP", "More Info", []⟩] ∧
    ([⟨ "iP", "tP", "intro text", []⟩, ⟨ "iP", "tP", "More Info", []⟩] :
        List AccountingPolicy) ≠
      [⟨ "iP", "tP", "Preamble", [ "intro text"]⟩,
       ⟨ "iP", "tP", "More Info", []⟩] :=
  ⟨ by decide, rfl, by decide⟩

/-- C6 amended: when the two post-skip rows carry in column B a string
that is not heading-shaped for the code's heuristic followed by one
that is, segmentation returns the Preamble record carrying the first
string and an empty record named by the second, closed at sheet end. -/
theorem C6_preamble_rule (ws : XLSWorksheet) (s1 s2 : String)
    (r1 r2 : List Cell)
    (hrows : ws.rows_without_tables.drop 4 = [r1, r2])
    (h1 : r1.get? 1 = Option.some (Cell.str s1))
    (h2 : r2.get? 1 = Option.some (Cell.str s2))
    (hh1 : isHeader s1 = false)
    (hh2 : isHeader s2 = true) :
    ws.extract_accounting_policies =
      Except.ok
        [⟨ws.id, ws.title, "Preamble", [s1]⟩, ⟨ws.id, ws.title, s2, []⟩] := by
  have h1g : r1[1]? = Option.some (Cell.str s1) := by
    rw [← List.get?_eq_getElem?]; exact h1
  have h2g : r2[1]? = Option.some (Cell.str s2) := by
    rw [← List.get?_eq_getElem?]; exact h2
  unfold XLSWorksheet.extract_accounting_policies segStep
  rw [hrows]
  simp [List.foldlM_cons, List.foldlM_nil, h1g, h2g, hh1, hh2, exbind_ok]
  rfl

/-- A preamble fixture whose first post-skip string really is
non-heading-shaped (it contains the substring year). -/
def viewPre : XLSWorksheet :=
  ⟨ "iQ", "tQ", 0,
    [padRow, padRow, padRow, padRow,
     [Cell.none, Cell.str "intro text for the year"],
     [Cell.none, Cell.str "More Info"]]⟩

/-- C6 witness: the amended preamble rule applied to a concrete view. -/
theorem C6_preamble_rule_witness :
    viewPre.extract_accounting_policies =
      Except.ok
        [⟨ "iQ", "tQ", "Preamble", [ "intro text for the year"]⟩,
         ⟨ "iQ", "tQ", "More Info", []⟩] :=
  C6_preamble_rule viewPre "intro text for the year" "More Info"
    [Cell.none, Cell.str "intro text for the year"]
    [Cell.none, Cell.str "More Info"] rfl rfl rfl (by decide) (by decide)

/-- A cell matches the caption test exactly when it is a string whose
lowercase form contains one of the two caption substrings. -/
theorem cellMatchesCaption_iff (c : Cell) :
    cellMatchesCaption c = true ↔
    ∃ s : String, c = Cell.str s ∧
      (containsSubstr (strToLower s)
          "summary of significant accounting policies" = true ∨
       containsSubstr (strToLower s)
          "significant accounting policies" = true) := by
  cases c <;> simp [cellMatchesCaption]

/-- The caption scan as the spec words it: some cell among the first
min(10, row count) rows is a string whose case-normalized form
contains one of the two caption substrings. -/
def captionPresent (ws : XLSWorksheet) : Prop :=
  ∃ row ∈ ws.rows.take (min 10 ws.rows.length), ∃ c ∈ row, ∃ s : String,
    c = Cell.str s ∧
    (containsSubstr (strToLower s)
        "summary of significant accounting policies" = true ∨
     containsSubstr (strToLower s)
        "significant accounting policies" = true)

/-- C9: for a view passing both row-count conditions, classification
is true exactly when the caption scan of the first min(10, row count)
rows finds a matching string cell; absent and non-string cells never
contribute and never fault. -/
theorem C9_caption_scan (ws : XLSWorksheet)
    (hr : 50 < ws.num_rows) (hn : 50 < ws.num_non_table_rows) :
    ws.is_summary_of_accounting_policies_sheet = true ↔ captionPresent ws := by
  unfold XLSWorksheet.is_summary_of_accounting_policies_sheet captionPresent
  rw [if_neg (by omega), if_neg (by omega)]
  simp [List.any_eq_true, cellMatchesCaption_iff]

/-- A 51-row all-narrative sheet with the caption in row 0. -/
def sheet51 : XLSWorksheet :=
  ⟨ "id51", "Sheet51", 0, capRow :: List.replicate 50 bodyRowA⟩

/-- C9 witness: the caption-scan characterization applied to a
concrete 51-row view. -/
theorem C9_caption_scan_witness :
    sheet51.is_summary_of_accounting_policies_sheet = true ↔
      captionPresent sheet51 :=
  C9_caption_scan sheet51 (by decide) (by decide)

/-- startsWithChars holds exactly when the haystack extends the
needle. -/
theorem startsWithChars_iff (n : List Char) :
    ∀ h : List Char, startsWithChars n h = true ↔ ∃ t, h = n ++ t := by
  induction n with
  | nil =>
    intro h
    simp [startsWithChars]
  | cons a as ih =>
    intro h
    cases h with
    | nil =>
      simp [startsWithChars]
    | cons b bs =>
      simp only [startsWithChars, Bool.and_eq_true, beq_iff_eq, ih bs,
        List.cons_append, List.cons.injEq]
      constructor
      · rintro ⟨hab, t, ht⟩
        exact ⟨t, hab.symm, ht⟩
      · rintro ⟨t, hba, ht⟩
        exact ⟨hba.symm, t, ht⟩

/-- subChars holds exactly when the haystack splits around the
needle. -/
theorem subChars_iff (n : List Char) :
    ∀ h : List Char, subChars n h = true ↔ ∃ p t, h = p ++ n ++ t := by
  intro h
  induction h with
  | nil =>
    simp only [subChars, startsWithChars_iff]
    constructor
    · rintro ⟨t, ht⟩
      exact ⟨[], t, by simpa using ht⟩
    · rintro ⟨p, t, ht⟩
      refine ⟨t, ?_⟩
      rcases List.append_eq_nil.mp ht.symm with ⟨hpn, -⟩
      rcases List.append_eq_nil.mp hpn with ⟨hp, hn⟩
      simp [hp, hn] at ht ⊢
      exact ht
  | cons c cs ih =>
    simp only [subChars, Bool.or_eq_true, startsWithChars_iff, ih]
    constructor
    · rintro (⟨t, ht⟩ | ⟨p, t, ht⟩)
      · exact ⟨[], t, by simpa using ht⟩
      · exact ⟨c :: p, t, by simp [ht]⟩
    · rintro ⟨p, t, ht⟩
      cases p with
      | nil =>
        exact Or.inl ⟨t, by simpa using ht⟩
      | cons q qs =>
        right
        simp only [List.cons_append, List.cons.injEq] at ht
        exact ⟨qs, t, ht.2⟩

/-- A string containing a compound needle contains its tail part. -/
theorem subChars_of_append (pre n h : List Char)
    (hsub : subChars (pre ++ n) h = true) : subChars n h = true := by
  rw [subChars_iff] at hsub ⊢
  obtain ⟨p, t, ht⟩ := hsub
  exact ⟨p ++ pre, t, by simp [ht, List.append_assoc]⟩

/-- The caption test with only the shorter substring (the claimed
equivalent variant of the classifier's scan). -/
def cellMatchesCaptionShort (c : Cell) : Bool :=
  match c with
  | Cell.str s =>
    containsSubstr (strToLower s) "significant accounting policies"
  | _ => false

/-- The classifier variant that keeps the two row-count checks and
tests only the shorter caption substring in the scan. -/
def is_summary_sheet_short_scan (ws : XLSWorksheet) : Bool :=
  if ws.num_rows < 50 then false
  else if ws.num_non_table_rows < 50 then false
  else (ws.rows.take (min 10 ws.rows.length)).any
    (fun row => row.any cellMatchesCaptionShort)

/-- The long caption literally extends the short caption. -/
theorem caption_decomp :
    ( "summary of significant accounting policies").toList =
    ( "summary of ").toList ++ ( "significant accounting policies").toList := by
  decide

/-- The two-substring cell test agrees with the short-substring cell
test on every cell. -/
theorem cellMatchesCaption_eq_short (c : Cell) :
    cellMatchesCaption c = cellMatchesCaptionShort c := by
  cases c with
  | str s =>
    simp only [cellMatchesCaption, cellMatchesCaptionShort]
    cases hshort : containsSubstr (strToLower s)
        "significant accounting policies" with
    | true => simp [hshort]
    | false =>
      simp only [hshort, Bool.or_false]
      by_contra hlong
      rw [Bool.not_eq_false] at hlong
      have hs : containsSubstr (strToLower s)
          "significant accounting policies" = true := by
        unfold containsSubstr at hlong ⊢
        rw [caption_decomp] at hlong
        exact subChars_of_append _ _ _ hlong
      rw [hs] at hshort
      cases hshort
  | none => rfl
  | num n => rfl
  | other => rfl

/-- C10: the check for the long caption is redundant: the classifier
equals the variant testing only the short caption on every view, so
removing the first substring check leaves classification unchanged. -/
theorem C10_long_caption_redundant (ws : XLSWorksheet) :
    ws.is_summary_of_accounting_policies_sheet =
      is_summary_sheet_short_scan ws := by
  have hf : cellMatchesCaption = cellMatchesCaptionShort :=
    funext cellMatchesCaption_eq_short
  unfold XLSWorksheet.is_summary_of_accounting_policies_sheet
    is_summary_sheet_short_scan
  rw [hf]

/-- The record produced 46 times by segmenting sheetA. -/
def recA : AccountingPolicy := ⟨ "idA", "SheetA", "Alpha", []⟩

/-- The record produced 46 times by segmenting sheetB. -/
def recB : AccountingPolicy := ⟨ "idB", "SheetB", "Beta", []⟩

/-- C2 counterexample: two qualifying sheets with equal row counts,
sheetA at the smaller workbook index; the concatenated output starts
with sheetB's records, so the smaller index is not segmented first. -/
theorem C2_counterexample :
    sheetA.is_summary_of_accounting_policies_sheet = true ∧
    sheetB.is_summary_of_accounting_policies_sheet = true ∧
    sheetA.num_rows = sheetB.num_rows ∧
    sheetA.worksheet_index < sheetB.worksheet_index ∧
    sheetA.extract_accounting_policies =
      Except.ok (List.replicate 46 recA) ∧
    sheetB.extract_accounting_policies =
      Except.ok (List.replicate 46 recB) ∧
    extractPolicies [sheetA, sheetB] =
      Except.ok (List.replicate 46 recB ++ List.replicate 46 recA) ∧
    (List.replicate 46 recB ++ List.replicate 46 recA :
        List AccountingPolicy) ≠
      List.replicate 46 recA ++ List.replicate 46 recB :=
  ⟨ by decide, by decide, by decide, by decide, rfl, rfl, rfl, by decide⟩

/-- C2 amended: two qualifying sheets with equal row counts are
tie-broken by worksheet index descending: the sheet with the larger
original index is segmented first and its records come first,
whatever the input order of the two sheets. -/
theorem C2_tiebreak_descending (a b : XLSWorksheet)
    (ra rb : List AccountingPolicy)
    (hqa : a.is_summary_of_accounting_policies_sheet = true)
    (hqb : b.is_summary_of_accounting_policies_sheet = true)
    (hrows : a.num_rows = b.num_rows)
    (hidx : a.worksheet_index < b.worksheet_index)
    (hea : a.extract_accounting_policies = Except.ok ra)
    (heb : b.extract_accounting_policies = Except.ok rb) :
    extractPolicies [a, b] = Except.ok (rb ++ ra) ∧
    extractPolicies [b, a] = Except.ok (rb ++ ra) := by
  have hab : ltSheet a b = true := by
    have h1 : ¬ (a.num_rows < b.num_rows) := by omega
    simp [ltSheet, decide_eq_false h1, decide_eq_true hidx, hrows]
  have hba : ltSheet b a = false := by
    have h1 : ¬ (b.num_rows < a.num_rows) := by omega
    have h2 : ¬ (b.worksheet_index < a.worksheet_index) := by omega
    simp [ltSheet, decide_eq_false h1, decide_eq_false h2]
  have hsort1 : pySortRev [a, b] = [b, a] := by
    simp [pySortRev, pySortAsc, insertAsc, hab]
  have hsort2 : pySortRev [b, a] = [b, a] := by
    simp [pySortRev, pySortAsc, insertAsc, hba]
  constructor
  · rw [extractPolicies, hsort1]
    simp [List.filter, hqa, hqb, List.foldlM_cons, List.foldlM_nil,
      hea, heb, exbind_ok]
  · rw [extractPolicies, hsort2]
    simp [List.filter, hqa, hqb, List.foldlM_cons, List.foldlM_nil,
      hea, heb, exbind_ok]

/-- C2 witness: the amended tie-break applied to the two concrete
qualifying sheets. -/
theorem C2_tiebreak_descending_witness :
    extractPolicies [sheetA, sheetB] =
      Except.ok (List.replicate 46 recB ++ List.replicate 46 recA) ∧
    extractPolicies [sheetB, sheetA] =
      Except.ok (List.replicate 46 recB ++ List.replicate 46 recA) :=
  C2_tiebreak_descending sheetA sheetB (List.replicate 46 recA)
    (List.replicate 46 recB) (by decide) (by decide) (by decide) (by decide)
    rfl rfl
